import Mathlib

/-!
Verification development for the Nexell DRM hwcomposer HAL.

The definitions below are a shallow embedding of the C++ sources
(`drmresources.cpp`, `hwcomposer.cpp`, `renderworker.h`, the unnamed
render-worker variant and the importer).  Kernel calls (ioctls, atomic
commits, buffer import) are modelled as oracles supplying their return
codes; the state they act on (crtc/encoder/connector bindings, property
sets, blob ids, frame-buffer caches, queues) is threaded explicitly.
-/

namespace Hwc

/-! Part: Error codes (errno values used by the sources) -/

def ENOENT : Int := 2
def EAGAIN : Int := 11
def ENOMEM : Int := 12
def ENODEV : Int := 19
def EINVAL : Int := 22

/-! Part: Small list helpers (explicit so their behaviour is transparent) -/

/-- Replace the element at index `i` by `f` of it; out-of-range leaves the
list unchanged.  Counterpart of mutating one object owned by the resource
lists through a pointer. -/
def listModify {α : Type} (l : List α) (i : Nat) (f : α → α) : List α :=
  match l[i]? with
  | some a => l.set i (f a)
  | none => l

/-! Part: Resource graph: crtcs, encoders, connectors (drmresources.cpp)

`DrmCrtc`, `DrmEncoder`, `DrmConnector` keep exactly the fields the
binding resolver reads and writes.  Cross references are indices into the
owning lists of `DrmState`, mirroring the pointers into `crtcs_`,
`encoders_`, `connectors_`. -/

structure DrmCrtc where
  display : Option Nat
deriving DecidableEq, Repr

structure DrmEncoder where
  crtc : Option Nat
  possible_crtcs : List Nat
deriving DecidableEq, Repr

structure DrmConnector where
  display : Nat
  encoder : Option Nat
  possible_encoders : List Nat
deriving DecidableEq, Repr

structure DrmState where
  crtcs : List DrmCrtc
  encoders : List DrmEncoder
  connectors : List DrmConnector
deriving DecidableEq, Repr

/-- Modelled from the spec: `DrmCrtc::can_bind` lives in `drmcrtc.cpp`,
which is not among the sources.  Per the spec a controller can serve a
display iff it serves no display, or already serves that same display
("if that controller is already serving a different display, fail with
try next"). -/
def DrmCrtc.can_bind (c : DrmCrtc) (display : Nat) : Bool :=
  c.display = none || c.display = some display

def canBindAt (s : DrmState) (ci d : Nat) : Bool :=
  match s.crtcs[ci]? with
  | some c => c.can_bind d
  | none => false

/-- `crtc->set_display(display)`. -/
def setCrtcDisplay (s : DrmState) (ci d : Nat) : DrmState :=
  { s with crtcs := listModify s.crtcs ci (fun _ => { display := some d }) }

/-- `enc->set_crtc(crtc)`. -/
def setEncoderCrtc (s : DrmState) (ei ci : Nat) : DrmState :=
  { s with encoders := listModify s.encoders ei (fun e => { e with crtc := some ci }) }

/-- `connector->set_encoder(enc)`. -/
def setConnectorEncoder (s : DrmState) (ki ei : Nat) : DrmState :=
  { s with connectors := listModify s.connectors ki (fun k => { k with encoder := some ei }) }

/-- The loop of `DrmResources::TryEncoderForDisplay` over
`enc->possible_crtcs()`, skipping the encoder's current crtc (`cur`). -/
def tryCrtcList (s : DrmState) (d ei : Nat) (cur : Option Nat) :
    List Nat → Int × DrmState
  | [] => (-EAGAIN, s)
  | ci :: rest =>
    if some ci = cur then tryCrtcList s d ei cur rest
    else if canBindAt s ci d then
      (0, setCrtcDisplay (setEncoderCrtc s ei ci) ci d)
    else tryCrtcList s d ei cur rest

/-- `DrmResources::TryEncoderForDisplay` (drmresources.cpp:244-264). -/
def tryEncoderForDisplay (s : DrmState) (d ei : Nat) : Int × DrmState :=
  match s.encoders[ei]? with
  | none => (-EAGAIN, s)
  | some enc =>
    match enc.crtc with
    | some ci =>
      if canBindAt s ci d then (0, setCrtcDisplay s ci d)
      else tryCrtcList s d ei (some ci) enc.possible_crtcs
    | none => tryCrtcList s d ei none enc.possible_crtcs

/-- The loop of `DrmResources::CreateDisplayPipe` over
`connector->possible_encoders()`. -/
def tryEncoderList (s : DrmState) (d ki : Nat) : List Nat → Int × DrmState
  | [] => (-ENODEV, s)
  | ei :: rest =>
    let r := tryEncoderForDisplay s d ei
    if r.fst = 0 then (0, setConnectorEncoder r.snd ki ei)
    else if r.fst ≠ -EAGAIN then r
    else tryEncoderList r.snd d ki rest

/-- `DrmResources::CreateDisplayPipe` (drmresources.cpp:266-294), acting on
the connector at index `ki`. -/
def createDisplayPipe (s : DrmState) (ki : Nat) : Int × DrmState :=
  match s.connectors[ki]? with
  | none => (-ENODEV, s)
  | some conn =>
    match conn.encoder with
    | some e0 =>
      let r := tryEncoderForDisplay s conn.display e0
      if r.fst = 0 then (0, r.snd)
      else if r.fst ≠ -EAGAIN then r
      else tryEncoderList r.snd conn.display ki conn.possible_encoders
    | none => tryEncoderList s conn.display ki conn.possible_encoders

/-! ### Spec-side first-fit description (written from the spec's words,
to be compared with `createDisplayPipe`) -/

/-- Candidate list the spec describes when skipping the current crtc. -/
def candFilter (cur : Option Nat) (l : List Nat) : List Nat :=
  match cur with
  | some c0 => l.filter (fun x => x != c0)
  | none => l

/-- Per-encoder controller search order the spec describes: the encoder's
current controller first, then its legal controllers in listing order. -/
def encCandidates (s : DrmState) (ei : Nat) : List Nat :=
  match s.encoders[ei]? with
  | none => []
  | some enc =>
    match enc.crtc with
    | some ci => ci :: candFilter (some ci) enc.possible_crtcs
    | none => enc.possible_crtcs

/-- Effect of binding candidate controller `ci` through encoder `ei`:
set the controller's served display, and point the encoder at the
controller when it is not already its current one. -/
def bindCandidate (s : DrmState) (d ei ci : Nat) : DrmState :=
  let cur : Option Nat :=
    match s.encoders[ei]? with
    | some enc => enc.crtc
    | none => none
  if cur = some ci then setCrtcDisplay s ci d
  else setCrtcDisplay (setEncoderCrtc s ei ci) ci d

/-- Spec-side per-encoder search: first candidate that can serve the
display wins. -/
def specTryEncoder (s : DrmState) (d ei : Nat) : Option DrmState :=
  match (encCandidates s ei).find? (fun ci => canBindAt s ci d) with
  | some ci => some (bindCandidate s d ei ci)
  | none => none

/-- Spec-side iteration over the output's legal encoders in listing
order; a successful bind also records the chosen encoder on the output. -/
def specEncoderSearch (s : DrmState) (d ki : Nat) : List Nat → Int × DrmState
  | [] => (-ENODEV, s)
  | ei :: rest =>
    match specTryEncoder s d ei with
    | some t => (0, setConnectorEncoder t ki ei)
    | none => specEncoderSearch s d ki rest

/-- Spec-side binding algorithm: try the bound encoder first when
present, then the legal encoders in listing order; no usable controller
anywhere means failure with no pipeline available. -/
def specCreateDisplayPipe (s : DrmState) (ki : Nat) : Int × DrmState :=
  match s.connectors[ki]? with
  | none => (-ENODEV, s)
  | some conn =>
    match conn.encoder with
    | some e0 =>
      match specTryEncoder s conn.display e0 with
      | some t => (0, t)
      | none => specEncoderSearch s conn.display ki conn.possible_encoders
    | none => specEncoderSearch s conn.display ki conn.possible_encoders

/-! ### Legality invariant (C7) -/

def connOk (k : DrmConnector) : Bool :=
  match k.encoder with
  | some e => decide (e ∈ k.possible_encoders)
  | none => true

def encOk (e : DrmEncoder) : Bool :=
  match e.crtc with
  | some ci => decide (ci ∈ e.possible_crtcs)
  | none => true

/-- Every set encoder reference is in the owner's legal-encoder list and
every set crtc reference is in the owner's legal-controller list (what
discovery establishes when the kernel-reported current bindings are
legal). -/
def legalRefsB (s : DrmState) : Bool :=
  s.connectors.all connOk && s.encoders.all encOk

/-- Controller `ci` currently serves logical display `d`. -/
def crtcServes (s : DrmState) (ci d : Nat) : Prop :=
  ∃ c, s.crtcs[ci]? = some c ∧ c.display = some d

/-- The connector at `ki` is bound to a legal encoder whose controller is
legal for it and serves the connector's display. -/
def boundOk (s : DrmState) (ki : Nat) : Prop :=
  ∀ conn, s.connectors[ki]? = some conn →
    ∃ e enc ci, conn.encoder = some e ∧ e ∈ conn.possible_encoders ∧
      s.encoders[e]? = some enc ∧ enc.crtc = some ci ∧
      ci ∈ enc.possible_crtcs ∧ crtcServes s ci conn.display

/-! ### Concrete states used by witnesses -/

/-- Two crtcs the single encoder may drive, one connector, nothing bound. -/
def pipeStateFree : DrmState :=
  { crtcs := [{ display := none }, { display := none }]
  , encoders := [{ crtc := none, possible_crtcs := [0, 1] }]
  , connectors := [{ display := 0, encoder := none, possible_encoders := [0] }] }

/-- The only legal controller already serves another display. -/
def pipeStateBusy : DrmState :=
  { crtcs := [{ display := some 5 }]
  , encoders := [{ crtc := some 0, possible_crtcs := [0] }]
  , connectors := [{ display := 0, encoder := none, possible_encoders := [0] }] }

/-! Part: Frame queue (`RenderWorker::QueueFB` / `DequeueFB`, renderworker.h)

`NXQueue` is a FIFO; the list carries the pending buffers with the
oldest at the head. -/

/-- `NXQueue::queue`: push at the back. -/
def nxqueuePush {α : Type} (q : List α) (b : α) : List α := q ++ [b]

/-- `NXQueue::pop`: drop the front (oldest) entry. -/
def nxqueuePop {α : Type} (q : List α) : List α := q.tail

/-- `RenderWorker::QueueFB` (renderworker.h:98-108): push, then drop the
oldest entry when the depth has reached 2. -/
def queueFB {α : Type} (q : List α) (b : α) : List α :=
  let q1 := nxqueuePush q b
  if 2 ≤ q1.length then nxqueuePop q1 else q1

/-- `RenderWorker::DequeueFB` (renderworker.h:110-114): NULL when empty,
otherwise the front entry, which is removed. -/
def dequeueFB {α : Type} (q : List α) : Option α × List α :=
  if q.isEmpty then (none, q) else (q.head?, q.tail)

inductive FBOp (α : Type) where
  | enq (b : α)
  | deq
deriving DecidableEq, Repr

def fbStep {α : Type} (q : List α) : FBOp α → List α
  | .enq b => queueFB q b
  | .deq => (dequeueFB q).snd

/-- Queue contents after running a sequence of QueueFB/DequeueFB
operations from the empty queue. -/
def fbRun {α : Type} (ops : List (FBOp α)) : List α :=
  ops.foldl fbStep []

/-! Part: Property blob destroy (`DrmResources::DestroyPropertyBlob`) -/

/-- Kernel oracle: the status `drmIoctl(DRM_IOCTL_MODE_DESTROYPROPBLOB)`
would return for each blob id. -/
structure DrmFd where
  destroyBlobRet : Nat → Int

/-- `DrmResources::DestroyPropertyBlob` (drmresources.cpp:315-332).
Returns its status and the number of kernel destroy calls issued. -/
def destroyPropertyBlob (k : DrmFd) (blob_id : Nat) : Int × Nat :=
  if blob_id = 0 then (0, 0)
  else
    let ret := k.destroyBlobRet blob_id
    if ret ≠ 0 then (ret, 1) else (0, 1)

def fdEx : DrmFd := ⟨fun i => if i = 7 then -EINVAL else 0⟩

/-! Part: Hotplug handling (`DrmHotplugHandler::HandleEvent`, hwcomposer.cpp) -/

inductive ConnState where
  | connected
  | disconnected
  | unknownState
deriving DecidableEq, Repr

structure HotplugConn where
  display : Nat
  oldState : ConnState
  /-- State reported after `UpdateModes` re-reads the connector
  (drmconnector.cpp is not among the sources; the refreshed state is an
  input here). -/
  newState : ConnState
deriving DecidableEq, Repr

/-- Oracles for the two fallible reconfiguration calls made per
transition: `hwc_set_display_active_mode` (connect) and
`SetDpmsMode(DPMS_OFF)` (disconnect), keyed by display index. -/
structure HotplugEnv where
  setModeRet : Nat → Int
  dpmsOffRet : Nat → Int

/-- `DrmHotplugHandler::HandleEvent` (hwcomposer.cpp:84-133), reduced to
the sequence of compositor hotplug callbacks `(display, connected)` it
emits.  A failing reconfiguration executes `return;`, ending the whole
handler, so it emits nothing further.  The mode chosen on connect and
the cache release on disconnect do not affect which callbacks fire. -/
def handleEventCalls (env : HotplugEnv) : List HotplugConn → List (Nat × Bool)
  | [] => []
  | c :: rest =>
    if c.newState = c.oldState then handleEventCalls env rest
    else if c.newState = ConnState.connected then
      if env.setModeRet c.display ≠ 0 then []
      else (c.display, true) :: handleEventCalls env rest
    else
      if env.dpmsOffRet c.display ≠ 0 then []
      else (c.display, false) :: handleEventCalls env rest

def hotplugEnvFail : HotplugEnv := ⟨fun _ => -EINVAL, fun _ => 0⟩

def hotplugEnvOk : HotplugEnv := ⟨fun _ => 0, fun _ => 0⟩

def hotplugConnEx : HotplugConn :=
  { display := 0, oldState := ConnState.disconnected
  , newState := ConnState.connected }

def hotplugConnsEx : List HotplugConn :=
  [ hotplugConnEx
  , { display := 1, oldState := ConnState.connected
    , newState := ConnState.connected }
  , { display := 2, oldState := ConnState.connected
    , newState := ConnState.disconnected } ]

/-! Part: Mode blob lifecycle (C2)

The kernel's blob store: ids are handed out monotonically starting at 1;
`live` holds the blobs that exist, `destroyed` records every id a kernel
destroy call removed. -/

structure BlobSys where
  nextBlob : Nat
  live : List Nat
  destroyed : List Nat
deriving DecidableEq, Repr

/-- `DrmResources::CreatePropertyBlob` (success case). -/
def createBlobK (s : BlobSys) : Nat × BlobSys :=
  (s.nextBlob, ⟨s.nextBlob + 1, s.nextBlob :: s.live, s.destroyed⟩)

/-- `DrmResources::DestroyPropertyBlob` acting on the blob store: id 0 is
a no-op, otherwise the blob is removed and recorded as destroyed. -/
def destroyBlobK (s : BlobSys) (id : Nat) : BlobSys :=
  if id = 0 then s else ⟨s.nextBlob, s.live.erase id, id :: s.destroyed⟩

/-- Per-display mode bookkeeping of `hwc_drm_display_t`. -/
structure HwcDisplay where
  needs_modeset : Bool
  blob_id : Nat
  old_blob_id : Nat
deriving DecidableEq, Repr

structure ModeState where
  sys : BlobSys
  hd : HwcDisplay
deriving DecidableEq, Repr

/-- The operations touching the pending blob of one display:
`hwc_set_display_active_mode` (hwcomposer.cpp:390-420), and a frame
commit through `render_fb` that succeeds (hwcomposer.cpp:770-796) or
fails (hwcomposer.cpp:775-779). -/
inductive ModeOp where
  | setMode
  | frameOk
  | frameFail
deriving DecidableEq, Repr

def modeStep (st : ModeState) : ModeOp → ModeState
  | .setMode =>
    let r := createBlobK st.sys
    ⟨r.snd, { needs_modeset := true, blob_id := r.fst
            , old_blob_id := st.hd.old_blob_id }⟩
  | .frameOk =>
    if st.hd.needs_modeset then
      ⟨destroyBlobK st.sys st.hd.old_blob_id,
       { needs_modeset := false, blob_id := st.hd.blob_id
       , old_blob_id := st.hd.blob_id }⟩
    else st
  | .frameFail => st

def modeRun (st : ModeState) (ops : List ModeOp) : ModeState :=
  ops.foldl modeStep st

def modeInit : ModeState :=
  ⟨⟨1, [], []⟩, { needs_modeset := false, blob_id := 0, old_blob_id := 0 }⟩

/-- Invariant carried while showing blob 1 is leaked: it is live, never
destroyed, no display field references it, and fresh ids stay above it. -/
def blobOneLost (st : ModeState) : Prop :=
  1 ∈ st.sys.live ∧ 1 ∉ st.sys.destroyed ∧
  st.hd.blob_id ≠ 1 ∧ st.hd.old_blob_id ≠ 1 ∧ 2 ≤ st.sys.nextBlob

/-! Part: Primary plane lookup (`DrmResources::GetPrimaryPlaneForCrtc`) -/

def DRM_PLANE_TYPE_PRIMARY : Nat := 1

structure DrmPlane where
  id : Nat
  ptype : Nat
  possible_crtcs : List Nat
deriving DecidableEq, Repr

/-- Modelled from the spec: `DrmPlane::GetCrtcSupported` lives in
`drmplane.cpp`, which is not among the sources; per the spec a plane
carries the set of pipeline controllers it may be attached to, and the
check is membership of the controller in that set. -/
def DrmPlane.getCrtcSupported (p : DrmPlane) (crtcId : Nat) : Bool :=
  p.possible_crtcs.contains crtcId

/-- `DrmResources::GetPrimaryPlaneForCrtc` (drmresources.cpp:485-498):
scan every plane, keeping the latest primary plane supporting the crtc. -/
def getPrimaryPlaneForCrtc (planes : List DrmPlane) (crtcId : Nat) :
    Option DrmPlane :=
  planes.foldl
    (fun acc p =>
      if p.ptype == DRM_PLANE_TYPE_PRIMARY && p.getCrtcSupported crtcId then
        some p
      else acc)
    none

def planesEx : List DrmPlane :=
  [ { id := 10, ptype := 1, possible_crtcs := [0] }
  , { id := 11, ptype := 0, possible_crtcs := [0] }
  , { id := 12, ptype := 1, possible_crtcs := [0, 1] } ]

/-! Part: Frame path (`render_fb`, hwcomposer.cpp:595-799; `RenderWorker::Render`
is the same logic driven from the worker queue)

The transaction is represented by the ordered list of properties added
to it; kernel and collaborator calls are oracles in `RenderEnv`. -/

/-- Imported frame buffer object: back reference to the buffer handle it
was imported from and its kernel framebuffer id. -/
structure HwcBo where
  priv : Nat
  fb_id : Nat
deriving DecidableEq, Repr

/-- Properties `render_fb` adds to the atomic property set. -/
inductive PsetProp where
  | crtcMode
  | connCrtcId
  | planeCrtcId
  | planeCrtcX
  | planeCrtcY
  | planeCrtcW
  | planeCrtcH
  | planeSrcU
  | planeSrcV
  | planeSrcW
  | planeSrcH
  | planeFbId
deriving DecidableEq, Repr

/-- The nine plane properties added inside the `needs_modeset` block whose
add failures return without freeing the property set. -/
def modesetPlaneProps : List PsetProp :=
  [ .planeCrtcId, .planeCrtcX, .planeCrtcY, .planeCrtcW, .planeCrtcH
  , .planeSrcU, .planeSrcV, .planeSrcW, .planeSrcH ]

/-- All twelve properties of a pending-modeset frame commit, in the order
the code adds them. -/
def fullCommitProps : List PsetProp :=
  [ .crtcMode, .connCrtcId, .planeCrtcId, .planeCrtcX, .planeCrtcY
  , .planeCrtcW, .planeCrtcH, .planeSrcU, .planeSrcV, .planeSrcW
  , .planeSrcH, .planeFbId ]

structure RenderEnv where
  importRet : Nat → Int
  importFbId : Nat → Nat
  crtcFound : Bool
  planeFound : Bool
  allocOk : Bool
  connectorFound : Bool
  addRet : PsetProp → Int
  commitRet : Int
  destroyBlobRet : Nat → Int
  dpmsOnRet : Int

structure RenderResult where
  ret : Int
  hd : HwcDisplay
  cache : List (Option HwcBo)
  imports : Nat
  psetAllocated : Bool
  psetFreed : Bool
  commitCalled : Bool
  commitProps : List PsetProp
  destroyedBlobs : List Nat
  dpmsOnCalled : Bool
deriving DecidableEq, Repr

/-- Result of a path taken before the property set is allocated. -/
def noPsetRes (ret : Int) (hd : HwcDisplay) (cache : List (Option HwcBo))
    (imports : Nat) : RenderResult :=
  { ret := ret, hd := hd, cache := cache, imports := imports
  , psetAllocated := false, psetFreed := false, commitCalled := false
  , commitProps := [], destroyedBlobs := [], dpmsOnCalled := false }

/-- Result of a failure path that returns after allocating the property
set without freeing it. -/
def leakRes (ret : Int) (hd : HwcDisplay) (cache : List (Option HwcBo))
    (imports : Nat) : RenderResult :=
  { ret := ret, hd := hd, cache := cache, imports := imports
  , psetAllocated := true, psetFreed := false, commitCalled := false
  , commitProps := [], destroyedBlobs := [], dpmsOnCalled := false }

/-- Result of a failure path that frees the property set before the
commit is reached. -/
def freedRes (ret : Int) (hd : HwcDisplay) (cache : List (Option HwcBo))
    (imports : Nat) : RenderResult :=
  { ret := ret, hd := hd, cache := cache, imports := imports
  , psetAllocated := true, psetFreed := true, commitCalled := false
  , commitProps := [], destroyedBlobs := [], dpmsOnCalled := false }

/-- Frame-buffer cache lookup (hwcomposer.cpp:606-612): first slot whose
object was imported from this handle. -/
def cacheLookup (cache : List (Option HwcBo)) (h : Nat) : Option HwcBo :=
  (cache.find? (fun s => s.any (fun bo => bo.priv == h))).join

/-- Cache insertion (hwcomposer.cpp:624-629): the first empty slot gets
the object; with no empty slot the cache is left as it is. -/
def cacheInsert (cache : List (Option HwcBo)) (bo : HwcBo) :
    List (Option HwcBo) :=
  match cache with
  | [] => []
  | none :: rest => some bo :: rest
  | some x :: rest => some x :: cacheInsert rest bo

/-- The plane-property adds of the `needs_modeset` block whose failures
return without `drmModeAtomicFree` (hwcomposer.cpp:675-750).  `acc` is
the list of properties already in the set. -/
def addNoFree (env : RenderEnv) (acc : List PsetProp) :
    List PsetProp → Except Int (List PsetProp)
  | [] => Except.ok acc
  | p :: rest =>
    if env.addRet p < 0 then Except.error (env.addRet p)
    else addNoFree env (acc ++ [p]) rest

/-- Tail of `render_fb` after the framebuffer property add: acquire-fence
wait, atomic commit, free, and the pending-modeset epilogue
(hwcomposer.cpp:753-798). -/
def finishCommit (env : RenderEnv) (hd : HwcDisplay)
    (cache : List (Option HwcBo)) (imports : Nat) (props : List PsetProp) :
    RenderResult :=
  if env.addRet .planeFbId < 0 then
    leakRes (env.addRet .planeFbId) hd cache imports
  else
    let finalProps := props ++ [PsetProp.planeFbId]
    if env.commitRet ≠ 0 then
      { ret := env.commitRet, hd := hd, cache := cache, imports := imports
      , psetAllocated := true, psetFreed := true, commitCalled := true
      , commitProps := finalProps, destroyedBlobs := []
      , dpmsOnCalled := false }
    else if hd.needs_modeset then
      let dres := destroyPropertyBlob ⟨env.destroyBlobRet⟩ hd.old_blob_id
      let destroyed := if dres.snd = 1 then [hd.old_blob_id] else []
      if dres.fst ≠ 0 then
        { ret := dres.fst, hd := hd, cache := cache, imports := imports
        , psetAllocated := true, psetFreed := true, commitCalled := true
        , commitProps := finalProps, destroyedBlobs := destroyed
        , dpmsOnCalled := false }
      else
        { ret := env.dpmsOnRet
        , hd := { needs_modeset := false, blob_id := hd.blob_id
                , old_blob_id := hd.blob_id }
        , cache := cache, imports := imports
        , psetAllocated := true, psetFreed := true, commitCalled := true
        , commitProps := finalProps, destroyedBlobs := destroyed
        , dpmsOnCalled := true }
    else
      { ret := 0, hd := hd, cache := cache, imports := imports
      , psetAllocated := true, psetFreed := true, commitCalled := true
      , commitProps := props ++ [PsetProp.planeFbId], destroyedBlobs := []
      , dpmsOnCalled := false }

/-- Middle of `render_fb` once the frame buffer object is at hand:
crtc/plane lookup, property-set allocation, connector lookup, the
pending-modeset property block, then the framebuffer property and commit
(hwcomposer.cpp:632-798). -/
def renderFbWithBo (env : RenderEnv) (hd : HwcDisplay)
    (cache : List (Option HwcBo)) (imports : Nat) : RenderResult :=
  if !env.crtcFound then noPsetRes (-ENODEV) hd cache imports
  else if !env.planeFound then noPsetRes (-ENODEV) hd cache imports
  else if !env.allocOk then noPsetRes (-ENOMEM) hd cache imports
  else if !env.connectorFound then leakRes (-ENODEV) hd cache imports
  else if hd.needs_modeset then
    if env.addRet .crtcMode < 0 then
      freedRes (env.addRet .crtcMode) hd cache imports
    else if env.addRet .connCrtcId < 0 then
      freedRes (env.addRet .connCrtcId) hd cache imports
    else
      match addNoFree env [PsetProp.crtcMode, PsetProp.connCrtcId]
          modesetPlaneProps with
      | Except.error e => leakRes e hd cache imports
      | Except.ok props => finishCommit env hd cache imports props
  else finishCommit env hd cache imports []

/-- `render_fb` (hwcomposer.cpp:595-799): NULL-handle check, cache
lookup, import-and-insert on a miss, then the transaction.  Handle 0
stands for a NULL buffer handle. -/
def renderFb (env : RenderEnv) (hd : HwcDisplay)
    (cache : List (Option HwcBo)) (handle : Nat) : RenderResult :=
  if handle = 0 then noPsetRes (-EINVAL) hd cache 0
  else
    match cacheLookup cache handle with
    | some _ => renderFbWithBo env hd cache 0
    | none =>
      if env.importRet handle ≠ 0 then
        noPsetRes (env.importRet handle) hd cache 1
      else
        let bo : HwcBo := ⟨handle, env.importFbId handle⟩
        renderFbWithBo env hd (cacheInsert cache bo) 1

/-- `hwc_release_display` (hwcomposer.cpp:376-388): release exactly the
cached objects and empty every slot. -/
def releaseDisplay (cache : List (Option HwcBo)) :
    List HwcBo × List (Option HwcBo) :=
  (cache.filterMap id, List.replicate cache.length none)

/-! ### `DrmResources::SetDisplayActiveMode` (drmresources.cpp:334-413)
reduced to its transaction/blob bookkeeping -/

structure ModeSetEnv where
  connectorFound : Bool
  crtcFound : Bool
  allocOk : Bool
  createBlobRet : Int
  addModeRet : Int
  addConnRet : Int
  commitRet : Int

structure ModeSetResult where
  ret : Int
  psetAllocated : Bool
  psetFreed : Bool
  commitCalled : Bool
  blobCreated : Bool
deriving DecidableEq, Repr

def setDisplayActiveMode (env : ModeSetEnv) : ModeSetResult :=
  if !env.connectorFound then ⟨-ENODEV, false, false, false, false⟩
  else if !env.crtcFound then ⟨-ENODEV, false, false, false, false⟩
  else if !env.allocOk then ⟨-ENOMEM, false, false, false, false⟩
  else if env.createBlobRet ≠ 0 then ⟨env.createBlobRet, true, false, false, false⟩
  else if env.addModeRet < 0 ∨ env.addConnRet < 0 then ⟨1, true, true, false, true⟩
  else if env.commitRet ≠ 0 then ⟨env.commitRet, true, true, true, true⟩
  else ⟨0, true, true, true, true⟩

/-! ### Concrete render-path inputs used by witnesses -/

def renderEnvOk : RenderEnv :=
  { importRet := fun _ => 0, importFbId := fun h => h + 100
  , crtcFound := true, planeFound := true, allocOk := true
  , connectorFound := true, addRet := fun _ => 0, commitRet := 0
  , destroyBlobRet := fun _ => 0, dpmsOnRet := 0 }

def renderEnvCommitFail : RenderEnv :=
  { renderEnvOk with commitRet := -EINVAL }

def renderEnvPlaneAddFail : RenderEnv :=
  { renderEnvOk with
    addRet := fun p => if p = PsetProp.planeCrtcId then -EINVAL else 0 }

def modeSetEnvBlobFail : ModeSetEnv :=
  { connectorFound := true, crtcFound := true, allocOk := true
  , createBlobRet := -ENOMEM, addModeRet := 0, addConnRet := 0
  , commitRet := 0 }

def modeSetEnvOk : ModeSetEnv :=
  { connectorFound := true, crtcFound := true, allocOk := true
  , createBlobRet := 0, addModeRet := 0, addConnRet := 0, commitRet := 0 }

def hdPending : HwcDisplay :=
  { needs_modeset := true, blob_id := 4, old_blob_id := 3 }

def cacheFullEx : List (Option HwcBo) :=
  [some ⟨5, 105⟩, some ⟨6, 106⟩]

/-! Part: List helper lemmas -/

lemma lookup_lt {α : Type} {l : List α} {i : Nat} {a : α}
    (h : l[i]? = some a) : i < l.length := by
  induction l generalizing i with
  | nil => simp at h
  | cons x xs ih =>
    cases i with
    | zero => simp
    | succ j =>
      simp only [List.getElem?_cons_succ] at h
      exact Nat.succ_lt_succ (ih h)

lemma mem_of_lookup {α : Type} {l : List α} {i : Nat} {a : α}
    (h : l[i]? = some a) : a ∈ l := by
  induction l generalizing i with
  | nil => simp at h
  | cons x xs ih =>
    cases i with
    | zero =>
      simp only [List.getElem?_cons_zero, Option.some.injEq] at h
      exact h ▸ List.mem_cons_self x xs
    | succ j =>
      simp only [List.getElem?_cons_succ] at h
      exact List.mem_cons_of_mem x (ih h)

lemma lookup_set_self {α : Type} {l : List α} {i : Nat} {a : α} (b : α)
    (h : l[i]? = some a) : (l.set i b)[i]? = some b := by
  induction l generalizing i with
  | nil => simp at h
  | cons x xs ih =>
    cases i with
    | zero => simp
    | succ j =>
      simp only [List.getElem?_cons_succ, List.set_cons_succ] at h ⊢
      exact ih h

lemma listModify_lookup_self {α : Type} (l : List α) (i : Nat) (f : α → α) :
    (listModify l i f)[i]? = (l[i]?).map f := by
  unfold listModify
  cases h : l[i]? with
  | none => simp [h]
  | some a => simp [lookup_set_self (f a) h]

lemma all_set {α : Type} {P : α → Bool} {l : List α} {i : Nat} {b : α}
    (h : l.all P = true) (hb : P b = true) : (l.set i b).all P = true := by
  rw [List.all_eq_true] at h ⊢
  intro x hx
  rcases List.mem_or_eq_of_mem_set hx with hmem | heq
  · exact h x hmem
  · exact heq ▸ hb

lemma all_listModify {α : Type} {P : α → Bool} {l : List α} {i : Nat}
    {f : α → α} (h : l.all P = true)
    (hf : ∀ a, l[i]? = some a → P (f a) = true) :
    (listModify l i f).all P = true := by
  unfold listModify
  cases hl : l[i]? with
  | none => exact h
  | some a => exact all_set h (hf a hl)

lemma find?_append_singleton {α : Type} (p : α → Bool) (l : List α) (x : α) :
    (l ++ [x]).find? p =
      match l.find? p with
      | some y => some y
      | none => if p x then some x else none := by
  induction l with
  | nil => cases hx : p x <;> simp [List.find?_cons, hx]
  | cons a as ih => cases hpa : p a <;> simp [List.find?_cons, hpa, ih]

lemma foldl_last_match {α : Type} (p : α → Bool) (l : List α)
    (acc : Option α) :
    l.foldl (fun a x => if p x then some x else a) acc =
      match l.reverse.find? p with
      | some y => some y
      | none => acc := by
  induction l generalizing acc with
  | nil => simp [List.find?]
  | cons a as ih =>
    simp only [List.foldl_cons, List.reverse_cons, ih,
      find?_append_singleton]
    cases as.reverse.find? p with
    | some y => simp
    | none => by_cases ha : p a <;> simp [ha]

/-! Part: C4 — frame queue bound and drop-oldest -/

lemma queueFB_length {α : Type} (q : List α) (b : α) :
    (queueFB q b).length = if q.length = 0 then 1 else q.length := by
  unfold queueFB nxqueuePush nxqueuePop
  by_cases h : q.length = 0
  · simp [List.length_eq_zero.mp h]
  · have h1 : 2 ≤ (q ++ [b]).length := by
      simp only [List.length_append, List.length_singleton]
      omega
    rw [if_pos h1, if_neg h]
    simp only [List.length_tail, List.length_append, List.length_singleton]
    omega

lemma fbRun_aux_length {α : Type} (ops : List (FBOp α)) :
    ∀ q : List α, q.length ≤ 1 → (ops.foldl fbStep q).length ≤ 1 := by
  induction ops with
  | nil => intro q hq; simpa using hq
  | cons op rest ih =>
    intro q hq
    simp only [List.foldl_cons]
    apply ih
    cases op with
    | enq b =>
      simp only [fbStep, queueFB_length]
      by_cases h : q.length = 0
      · simp [h]
      · rw [if_neg h]
        omega
    | deq =>
      simp only [fbStep, dequeueFB]
      by_cases h : q.isEmpty
      · simpa [h] using hq
      · simp only [h, Bool.false_eq_true, if_false]
        simp only [List.length_tail]
        omega

/-- C4: over every sequence of QueueFB/DequeueFB operations the per
display frame queue never holds more than 2 pending buffers; enqueuing
into a queue holding 2 pending buffers drops the oldest entry and keeps
the rest in order; `DequeueFB` always hands out the oldest pending entry
first (front of the queue), so entries leave in enqueue order. -/
theorem frame_queue_drop_oldest :
    (∀ ops : List (FBOp Nat), (fbRun ops).length ≤ 2) ∧
    (∀ (q : List Nat) (b : Nat), q.length = 2 →
      queueFB q b = q.tail ++ [b]) ∧
    (∀ q : List Nat, dequeueFB q = (q.head?, q.tail)) := by
  refine ⟨?_, ?_, ?_⟩
  · intro ops
    have h := fbRun_aux_length ops [] (by simp)
    unfold fbRun
    omega
  · intro q b hq
    unfold queueFB nxqueuePush nxqueuePop
    have h1 : 2 ≤ (q ++ [b]).length := by
      simp only [List.length_append, List.length_singleton]
      omega
    obtain ⟨x, t, rfl⟩ : ∃ x t, q = x :: t := by
      cases q with
      | nil => simp at hq
      | cons x t => exact ⟨x, t, rfl⟩
    rw [if_pos h1]
    rfl
  · intro q
    unfold dequeueFB
    by_cases h : q.isEmpty
    · have : q = [] := List.isEmpty_iff.mp h
      simp [this, h]
    · simp [h]

/-- Witness for C4 at concrete inputs. -/
theorem frame_queue_drop_oldest_witness :
    (fbRun [FBOp.enq 1, FBOp.enq 2, FBOp.enq 3]).length ≤ 2 ∧
    queueFB [5, 6] 7 = [6, 7] ∧
    dequeueFB [8, 9] = (some 8, [9]) := by
  refine ⟨frame_queue_drop_oldest.1 _, ?_, ?_⟩
  · have h := frame_queue_drop_oldest.2.1 [5, 6] 7 (by decide)
    simpa using h
  · have h := frame_queue_drop_oldest.2.2 [8, 9]
    simpa using h

/-! Part: C8 — DestroyPropertyBlob on id 0 -/

/-- C8: `DestroyPropertyBlob` called with blob id 0 succeeds and issues
no kernel call (so any number of repetitions also succeed with zero
kernel calls), while any nonzero id issues exactly one kernel destroy
call and the call's status is returned unchanged. -/
theorem destroy_blob_zero_noop (k : DrmFd) (id : Nat) (h : id ≠ 0) :
    destroyPropertyBlob k 0 = (0, 0) ∧
    destroyPropertyBlob k id = (k.destroyBlobRet id, 1) ∧
    (∀ n : Nat,
      ((List.replicate n (destroyPropertyBlob k 0)).map Prod.snd).sum = 0) := by
  refine ⟨rfl, ?_, ?_⟩
  · unfold destroyPropertyBlob
    simp only [h, if_false]
    by_cases hr : k.destroyBlobRet id = 0 <;> simp [hr]
  · intro n
    simp [destroyPropertyBlob, List.map_replicate]

/-- Witness for C8 at a concrete kernel oracle and id. -/
theorem destroy_blob_zero_noop_witness :
    destroyPropertyBlob fdEx 0 = (0, 0) ∧
    destroyPropertyBlob fdEx 7 = (fdEx.destroyBlobRet 7, 1) ∧
    (∀ n : Nat,
      ((List.replicate n (destroyPropertyBlob fdEx 0)).map Prod.snd).sum = 0) :=
  destroy_blob_zero_noop fdEx 7 (by decide)

/-! Part: C9 — GetPrimaryPlaneForCrtc last-match-wins -/

/-- C9: `GetPrimaryPlaneForCrtc` returns, among the planes that are
primary and legally attachable to the controller, the last one in plane
listing order (the first match of the reversed listing), and none when
no plane matches. -/
theorem primary_plane_last_match (planes : List DrmPlane) (c : Nat) :
    getPrimaryPlaneForCrtc planes c =
      planes.reverse.find?
        (fun p => p.ptype == DRM_PLANE_TYPE_PRIMARY &&
          p.getCrtcSupported c) ∧
    ((∀ p ∈ planes,
        ¬(p.ptype == DRM_PLANE_TYPE_PRIMARY && p.getCrtcSupported c) = true) →
      getPrimaryPlaneForCrtc planes c = none) := by
  have hfold := foldl_last_match
    (fun p : DrmPlane => p.ptype == DRM_PLANE_TYPE_PRIMARY &&
      p.getCrtcSupported c) planes none
  constructor
  · unfold getPrimaryPlaneForCrtc
    rw [hfold]
    cases planes.reverse.find?
      (fun p => p.ptype == DRM_PLANE_TYPE_PRIMARY &&
        p.getCrtcSupported c) <;> rfl
  · intro hnone
    unfold getPrimaryPlaneForCrtc
    rw [hfold]
    have : planes.reverse.find?
        (fun p => p.ptype == DRM_PLANE_TYPE_PRIMARY &&
          p.getCrtcSupported c) = none := by
      rw [List.find?_eq_none]
      intro p hp
      exact hnone p (List.mem_reverse.mp hp)
    rw [this]

/-- Witness for C9: no plane matches on the empty listing, and on a
concrete listing with two matching primaries the later one wins. -/
theorem primary_plane_last_match_witness :
    getPrimaryPlaneForCrtc ([] : List DrmPlane) 0 = none ∧
    getPrimaryPlaneForCrtc planesEx 0 =
      some { id := 12, ptype := 1, possible_crtcs := [0, 1] } := by
  constructor
  · exact (primary_plane_last_match [] 0).2 (by simp)
  · rw [(primary_plane_last_match planesEx 0).1]
    decide

/-! Part: C2 — mode blob leak (code bug) -/

lemma blobOneLost_step (st : ModeState) (op : ModeOp)
    (h : blobOneLost st) : blobOneLost (modeStep st op) := by
  obtain ⟨hlive, hdest, hblob, hold, hnext⟩ := h
  cases op with
  | setMode =>
    refine ⟨List.mem_cons_of_mem _ hlive, hdest, ?_, hold, by
      simp [modeStep, createBlobK]; omega⟩
    simp only [modeStep, createBlobK]
    omega
  | frameOk =>
    by_cases hm : st.hd.needs_modeset
    · simp only [modeStep, hm, if_true]
      unfold destroyBlobK
      by_cases h0 : st.hd.old_blob_id = 0
      · simp only [h0, if_true]
        exact ⟨hlive, hdest, hblob, hblob, hnext⟩
      · simp only [h0, if_false]
        refine ⟨?_, ?_, hblob, hblob, hnext⟩
        · exact (List.mem_erase_of_ne (Ne.symm hold)).mpr hlive
        · intro hmem
          rcases List.mem_cons.mp hmem with heq | hmem2
          · exact hold heq.symm
          · exact hdest hmem2
    · simpa [modeStep, hm] using ⟨hlive, hdest, hblob, hold, hnext⟩
  | frameFail => exact ⟨hlive, hdest, hblob, hold, hnext⟩

lemma blobOneLost_run (st : ModeState) (ops : List ModeOp)
    (h : blobOneLost st) : blobOneLost (modeRun st ops) := by
  induction ops generalizing st with
  | nil => exact h
  | cons op rest ih =>
    exact ih (modeStep st op) (blobOneLost_step st op h)

/-- C2 (evaluation at the failing input): the blob created by the first
of two consecutive `hwc_set_display_active_mode` calls (blob id 1) is
alive after the second call, and after any further sequence of mode-set
and frame-commit operations it is still alive and has never been
destroyed — so the claim's "destroyed exactly once / at most one blob
per pending mode change" is violated by the code. -/
theorem mode_blob_leaked_forever (ops : List ModeOp) :
    (modeRun modeInit [ModeOp.setMode]).sys.live = [1] ∧
    1 ∈ (modeRun (modeRun modeInit [ModeOp.setMode, ModeOp.setMode])
          ops).sys.live ∧
    1 ∉ (modeRun (modeRun modeInit [ModeOp.setMode, ModeOp.setMode])
          ops).sys.destroyed := by
  have hbase : blobOneLost (modeRun modeInit [ModeOp.setMode, ModeOp.setMode]) := by
    unfold blobOneLost modeRun modeInit modeStep createBlobK
    refine ⟨?_, ?_, ?_, ?_, ?_⟩ <;> decide
  have h := blobOneLost_run _ ops hbase
  exact ⟨by decide, h.1, h.2.1⟩

/-! Part: C3 — hotplug callback vs reconfiguration failure -/

/-- C3 counterexample: a connector transitions from disconnected to
connected, the internal mode-set fails, and the compositor hotplug
callback is never invoked — the handler returns early instead. -/
theorem hotplug_skipped_on_failure :
    hotplugConnEx.newState ≠ hotplugConnEx.oldState ∧
    handleEventCalls hotplugEnvFail [hotplugConnEx] = [] := by
  constructor
  · decide
  · decide

/-- C3 amended: for every hotplug pass in which each transitioned
connector's internal re-configuration succeeds, the compositor callback
is invoked once per transitioned connector, in order, with its display
index and new connected state; a failing re-configuration makes the
handler return before notifying (and skips the remaining connectors). -/
theorem hotplug_notify_on_success (env : HotplugEnv)
    (conns : List HotplugConn)
    (h : ∀ c ∈ conns, c.newState ≠ c.oldState →
      (if c.newState = ConnState.connected then env.setModeRet c.display = 0
       else env.dpmsOffRet c.display = 0)) :
    handleEventCalls env conns =
      (conns.filter (fun c => c.newState != c.oldState)).map
        (fun c => (c.display, c.newState == ConnState.connected)) := by
  induction conns with
  | nil => rfl
  | cons c rest ih =>
    have hrest : ∀ x ∈ rest, x.newState ≠ x.oldState →
        (if x.newState = ConnState.connected then env.setModeRet x.display = 0
         else env.dpmsOffRet x.display = 0) :=
      fun x hx => h x (List.mem_cons_of_mem c hx)
    have hmain := ih hrest
    by_cases hch : c.newState = c.oldState
    · have hne : (c.newState != c.oldState) = false := by simp [hch]
      simp only [handleEventCalls, if_pos hch]
      simp [List.filter_cons, hne, hmain]
    · have hc := h c (List.mem_cons_self c rest) hch
      have hne : (c.newState != c.oldState) = true := by simp [hch]
      by_cases hcon : c.newState = ConnState.connected
      · rw [if_pos hcon] at hc
        have hImp : ¬env.setModeRet c.display ≠ 0 := by simp [hc]
        have hold2 : ConnState.connected ≠ c.oldState := hcon ▸ hch
        simp only [handleEventCalls, if_neg hch, if_pos hcon, if_neg hImp]
        simp [List.filter_cons, hne, hcon, hmain, hold2]
      · rw [if_neg hcon] at hc
        have hImp : ¬env.dpmsOffRet c.display ≠ 0 := by simp [hc]
        simp only [handleEventCalls, if_neg hch, if_neg hcon, if_neg hImp]
        simp [List.filter_cons, hne, hcon, hch, hmain]

/-- Witness for the amended C3 on a concrete pass with one connect, one
unchanged connector and one disconnect. -/
theorem hotplug_notify_on_success_witness :
    handleEventCalls hotplugEnvOk hotplugConnsEx =
      [(0, true), (2, false)] := by
  have h := hotplug_notify_on_success hotplugEnvOk hotplugConnsEx (by decide)
  rw [h]
  decide

/-! Part: render path lemmas (C5, C6, C10) -/

lemma addNoFree_ok (env : RenderEnv) (acc : List PsetProp)
    (l : List PsetProp) (h : ∀ p ∈ l, ¬env.addRet p < 0) :
    addNoFree env acc l = Except.ok (acc ++ l) := by
  induction l generalizing acc with
  | nil => simp [addNoFree]
  | cons p rest ih =>
    simp only [addNoFree, if_neg (h p (List.mem_cons_self p rest))]
    rw [ih (acc ++ [p]) (fun q hq => h q (List.mem_cons_of_mem p hq))]
    simp

lemma finishCommit_flags (env : RenderEnv) (hd : HwcDisplay)
    (cache : List (Option HwcBo)) (i : Nat) (props : List PsetProp) :
    (finishCommit env hd cache i props).psetFreed =
      !decide (env.addRet .planeFbId < 0) ∧
    (finishCommit env hd cache i props).commitCalled =
      !decide (env.addRet .planeFbId < 0) ∧
    (finishCommit env hd cache i props).cache = cache ∧
    (finishCommit env hd cache i props).imports = i := by
  unfold finishCommit
  by_cases h1 : env.addRet .planeFbId < 0
  · simp [h1, leakRes]
  · by_cases h2 : env.commitRet ≠ 0
    · simp [h1, h2]
    · by_cases h3 : hd.needs_modeset
      · by_cases h4 :
          (destroyPropertyBlob ⟨env.destroyBlobRet⟩ hd.old_blob_id).fst ≠ 0
        · simp [h1, h2, h3, h4]
        · simp [h1, h2, h3, h4]
      · simp [h1, h2, h3]

lemma renderFbWithBo_cache_imports (env : RenderEnv) (hd : HwcDisplay)
    (cache : List (Option HwcBo)) (i : Nat) :
    (renderFbWithBo env hd cache i).cache = cache ∧
    (renderFbWithBo env hd cache i).imports = i := by
  unfold renderFbWithBo
  cases h1 : env.crtcFound with
  | false => simp [noPsetRes]
  | true =>
    cases h2 : env.planeFound with
    | false => simp [noPsetRes]
    | true =>
      cases h3 : env.allocOk with
      | false => simp [noPsetRes]
      | true =>
        cases h4 : env.connectorFound with
        | false => simp [leakRes]
        | true =>
          simp only [Bool.not_true, Bool.false_eq_true, if_false]
          by_cases h5 : hd.needs_modeset
          · simp only [h5, if_true]
            by_cases h6 : env.addRet .crtcMode < 0
            · simp [h6, freedRes]
            · by_cases h7 : env.addRet .connCrtcId < 0
              · simp [h6, h7, freedRes]
              · simp only [if_neg h6, if_neg h7]
                cases hres : addNoFree env
                    [PsetProp.crtcMode, PsetProp.connCrtcId]
                    modesetPlaneProps with
                | error e => simp [leakRes]
                | ok props =>
                  exact ⟨(finishCommit_flags env hd cache i props).2.2.1,
                    (finishCommit_flags env hd cache i props).2.2.2⟩
          · simp only [h5, if_false]
            exact ⟨(finishCommit_flags env hd cache i []).2.2.1,
              (finishCommit_flags env hd cache i []).2.2.2⟩

/-- Every result of the transaction-assembly stage is one of: an early
return before allocation, an allocated-but-leaked return, a freed early
return, or the commit tail. -/
lemma renderFbWithBo_shape (env : RenderEnv) (hd : HwcDisplay)
    (cache : List (Option HwcBo)) (i : Nat) :
    (∃ r, renderFbWithBo env hd cache i = noPsetRes r hd cache i) ∨
    (∃ r, renderFbWithBo env hd cache i = leakRes r hd cache i) ∨
    (∃ r, renderFbWithBo env hd cache i = freedRes r hd cache i) ∨
    (∃ props, renderFbWithBo env hd cache i =
      finishCommit env hd cache i props) := by
  unfold renderFbWithBo
  by_cases h1 : (!env.crtcFound) = true
  · rw [if_pos h1]; exact Or.inl ⟨_, rfl⟩
  · rw [if_neg h1]
    by_cases h2 : (!env.planeFound) = true
    · rw [if_pos h2]; exact Or.inl ⟨_, rfl⟩
    · rw [if_neg h2]
      by_cases h3 : (!env.allocOk) = true
      · rw [if_pos h3]; exact Or.inl ⟨_, rfl⟩
      · rw [if_neg h3]
        by_cases h4 : (!env.connectorFound) = true
        · rw [if_pos h4]; exact Or.inr (Or.inl ⟨_, rfl⟩)
        · rw [if_neg h4]
          by_cases h5 : hd.needs_modeset = true
          · rw [if_pos h5]
            by_cases h6 : env.addRet .crtcMode < 0
            · rw [if_pos h6]; exact Or.inr (Or.inr (Or.inl ⟨_, rfl⟩))
            · rw [if_neg h6]
              by_cases h7 : env.addRet .connCrtcId < 0
              · rw [if_pos h7]; exact Or.inr (Or.inr (Or.inl ⟨_, rfl⟩))
              · rw [if_neg h7]
                cases hres : addNoFree env
                    [PsetProp.crtcMode, PsetProp.connCrtcId]
                    modesetPlaneProps with
                | error e => exact Or.inr (Or.inl ⟨_, rfl⟩)
                | ok props => exact Or.inr (Or.inr (Or.inr ⟨_, rfl⟩))
          · rw [if_neg h5]
            exact Or.inr (Or.inr (Or.inr ⟨_, rfl⟩))

lemma renderFbWithBo_commit_freed (env : RenderEnv) (hd : HwcDisplay)
    (cache : List (Option HwcBo)) (i : Nat)
    (h : (renderFbWithBo env hd cache i).commitCalled = true) :
    (renderFbWithBo env hd cache i).psetFreed = true := by
  rcases renderFbWithBo_shape env hd cache i with
    ⟨r, hr⟩ | ⟨r, hr⟩ | ⟨r, hr⟩ | ⟨props, hr⟩
  · rw [hr] at h; simp [noPsetRes] at h
  · rw [hr] at h; simp [leakRes] at h
  · rw [hr] at h; simp [freedRes] at h
  · rw [hr] at h ⊢
    have hf := finishCommit_flags env hd cache i props
    rw [hf.2.1] at h
    rw [hf.1, h]

/-- Path equation: NULL handle. -/
lemma renderFb_null (env : RenderEnv) (hd : HwcDisplay)
    (cache : List (Option HwcBo)) :
    renderFb env hd cache 0 = noPsetRes (-EINVAL) hd cache 0 := by
  unfold renderFb
  rw [if_pos rfl]

/-- Path equation: cache hit. -/
lemma renderFb_hit (env : RenderEnv) (hd : HwcDisplay)
    (cache : List (Option HwcBo)) (handle : Nat) (hh : handle ≠ 0)
    {bo : HwcBo} (hlook : cacheLookup cache handle = some bo) :
    renderFb env hd cache handle = renderFbWithBo env hd cache 0 := by
  unfold renderFb
  rw [if_neg hh, hlook]

/-- Path equation: cache miss with a successful import. -/
lemma renderFb_miss (env : RenderEnv) (hd : HwcDisplay)
    (cache : List (Option HwcBo)) (handle : Nat) (hh : handle ≠ 0)
    (hmiss : cacheLookup cache handle = none)
    (himp : env.importRet handle = 0) :
    renderFb env hd cache handle =
      renderFbWithBo env hd
        (cacheInsert cache ⟨handle, env.importFbId handle⟩) 1 := by
  unfold renderFb
  rw [if_neg hh, hmiss]
  simp [himp]

/-- Path equation: cache miss with a failing import. -/
lemma renderFb_import_fail (env : RenderEnv) (hd : HwcDisplay)
    (cache : List (Option HwcBo)) (handle : Nat) (hh : handle ≠ 0)
    (hmiss : cacheLookup cache handle = none)
    (hi : env.importRet handle ≠ 0) :
    renderFb env hd cache handle =
      noPsetRes (env.importRet handle) hd cache 1 := by
  unfold renderFb
  rw [if_neg hh, hmiss]
  simp [hi]

lemma renderFb_commit_freed (env : RenderEnv) (hd : HwcDisplay)
    (cache : List (Option HwcBo)) (handle : Nat)
    (h : (renderFb env hd cache handle).commitCalled = true) :
    (renderFb env hd cache handle).psetFreed = true := by
  by_cases h0 : handle = 0
  · subst h0
    rw [renderFb_null env hd cache] at h
    simp [noPsetRes] at h
  · cases hlook : cacheLookup cache handle with
    | some bo =>
      rw [renderFb_hit env hd cache handle h0 hlook] at h ⊢
      exact renderFbWithBo_commit_freed env hd cache 0 h
    | none =>
      by_cases hi : env.importRet handle = 0
      · rw [renderFb_miss env hd cache handle h0 hlook hi] at h ⊢
        exact renderFbWithBo_commit_freed env hd _ 1 h
      · rw [renderFb_import_fail env hd cache handle h0 hlook hi] at h
        simp [noPsetRes] at h

/-! Part: C6 — transaction freeing -/

/-- C6 counterexample: two concrete executions whose transaction object
is allocated but never freed — `SetDisplayActiveMode` when blob creation
fails (drmresources.cpp:362-365 returns without `drmModeAtomicFree`),
and the frame path when the plane controller-attach add fails
(hwcomposer.cpp:678-682 returns without `drmModeAtomicFree`). -/
theorem pset_leaked_counterexample :
    ((setDisplayActiveMode modeSetEnvBlobFail).psetAllocated = true ∧
     (setDisplayActiveMode modeSetEnvBlobFail).psetFreed = false) ∧
    ((renderFb renderEnvPlaneAddFail hdPending [] 9).psetAllocated = true ∧
     (renderFb renderEnvPlaneAddFail hdPending [] 9).psetFreed = false) := by
  refine ⟨⟨?_, ?_⟩, ⟨?_, ?_⟩⟩ <;> decide

/-- C6 amended: every execution of the commit builders that reaches the
kernel commit call frees the transaction object, on success and on
commit failure (and the first two add failures of each builder free it
too); the remaining failure paths — blob-creation failure in
`SetDisplayActiveMode`, and connector-lookup or plane/framebuffer
property-add failure in the frame path — return without freeing the
allocated transaction. -/
theorem pset_freed_when_commit_reached :
    (∀ env : ModeSetEnv, (setDisplayActiveMode env).commitCalled = true →
      (setDisplayActiveMode env).psetFreed = true) ∧
    (∀ (env : RenderEnv) (hd : HwcDisplay) (cache : List (Option HwcBo))
      (handle : Nat),
      (renderFb env hd cache handle).commitCalled = true →
      (renderFb env hd cache handle).psetFreed = true) := by
  constructor
  · intro env h
    unfold setDisplayActiveMode at h ⊢
    by_cases h1 : env.connectorFound
    case neg => simp [h1] at h
    by_cases h2 : env.crtcFound
    case neg => simp [h1, h2] at h
    by_cases h3 : env.allocOk
    case neg => simp [h1, h2, h3] at h
    by_cases h4 : env.createBlobRet ≠ 0
    case pos => simp [h1, h2, h3, h4] at h
    by_cases h5 : env.addModeRet < 0 ∨ env.addConnRet < 0
    case pos => simp [h1, h2, h3, h4, h5]
    by_cases h6 : env.commitRet ≠ 0 <;>
      simp [h1, h2, h3, h4, h5, h6]
  · exact renderFb_commit_freed

/-- Witness for the amended C6: two concrete commits (one mode set, one
frame) that reach the kernel commit and free their transactions. -/
theorem pset_freed_when_commit_reached_witness :
    (setDisplayActiveMode modeSetEnvOk).psetFreed = true ∧
    (renderFb renderEnvOk hdPending [] 9).psetFreed = true := by
  constructor
  · exact pset_freed_when_commit_reached.1 modeSetEnvOk (by decide)
  · exact pset_freed_when_commit_reached.2 renderEnvOk hdPending [] 9
      (by decide)

/-! Part: C5 — pending-modeset frame commit -/

lemma renderFbWithBo_commitfail (env : RenderEnv) (hd : HwcDisplay)
    (cache : List (Option HwcBo)) (i : Nat)
    (hm : hd.needs_modeset = true)
    (hcr : env.crtcFound = true) (hpl : env.planeFound = true)
    (hal : env.allocOk = true) (hco : env.connectorFound = true)
    (hadd : ∀ p : PsetProp, ¬env.addRet p < 0)
    (hfail : env.commitRet ≠ 0) :
    renderFbWithBo env hd cache i =
      { ret := env.commitRet, hd := hd, cache := cache, imports := i
      , psetAllocated := true, psetFreed := true, commitCalled := true
      , commitProps := fullCommitProps, destroyedBlobs := []
      , dpmsOnCalled := false } := by
  unfold renderFbWithBo
  rw [hcr, hpl, hal, hco]
  simp only [Bool.not_true, Bool.false_eq_true, if_false]
  rw [if_pos hm]
  rw [if_neg (hadd _), if_neg (hadd _)]
  simp only [addNoFree_ok env _ _ (fun p _ => hadd p)]
  unfold finishCommit
  rw [if_neg (hadd _), if_pos hfail]
  rfl

/-- C5: for a frame rendered while a modeset is pending, once the
transaction is assembled it carries the mode blob, the connector crtc-id
property, the plane controller-attach property, the eight geometry
properties and the framebuffer-id property together, in one atomic
commit, in the order the code adds them; when that commit fails the
commit status is propagated, the display's pending-modeset bookkeeping
(`needs_modeset`, `blob_id`, `old_blob_id`) is unchanged, no blob is
destroyed, and no power-mode-on request is issued. -/
theorem render_modeset_single_commit (env : RenderEnv) (hd : HwcDisplay)
    (cache : List (Option HwcBo)) (handle : Nat)
    (hm : hd.needs_modeset = true) (hh : handle ≠ 0)
    (himp : env.importRet handle = 0)
    (hcr : env.crtcFound = true) (hpl : env.planeFound = true)
    (hal : env.allocOk = true) (hco : env.connectorFound = true)
    (hadd : ∀ p : PsetProp, ¬env.addRet p < 0)
    (hfail : env.commitRet ≠ 0) :
    (renderFb env hd cache handle).commitCalled = true ∧
    (renderFb env hd cache handle).commitProps = fullCommitProps ∧
    (renderFb env hd cache handle).ret = env.commitRet ∧
    (renderFb env hd cache handle).hd = hd ∧
    (renderFb env hd cache handle).destroyedBlobs = [] ∧
    (renderFb env hd cache handle).dpmsOnCalled = false ∧
    (renderFb env hd cache handle).psetFreed = true := by
  have hres : ∀ c2 i, renderFbWithBo env hd c2 i =
      { ret := env.commitRet, hd := hd, cache := c2, imports := i
      , psetAllocated := true, psetFreed := true, commitCalled := true
      , commitProps := fullCommitProps, destroyedBlobs := []
      , dpmsOnCalled := false } :=
    fun c2 i => renderFbWithBo_commitfail env hd c2 i hm hcr hpl hal hco
      hadd hfail
  cases hlook : cacheLookup cache handle with
  | some bo =>
    rw [renderFb_hit env hd cache handle hh hlook, hres cache 0]
    exact ⟨rfl, rfl, rfl, rfl, rfl, rfl, rfl⟩
  | none =>
    rw [renderFb_miss env hd cache handle hh hlook himp, hres _ 1]
    exact ⟨rfl, rfl, rfl, rfl, rfl, rfl, rfl⟩

/-- Witness for C5 at a concrete failing commit. -/
theorem render_modeset_single_commit_witness :
    (renderFb renderEnvCommitFail hdPending [] 9).commitCalled = true ∧
    (renderFb renderEnvCommitFail hdPending [] 9).commitProps =
      fullCommitProps ∧
    (renderFb renderEnvCommitFail hdPending [] 9).ret =
      renderEnvCommitFail.commitRet ∧
    (renderFb renderEnvCommitFail hdPending [] 9).hd = hdPending ∧
    (renderFb renderEnvCommitFail hdPending [] 9).destroyedBlobs = [] ∧
    (renderFb renderEnvCommitFail hdPending [] 9).dpmsOnCalled = false ∧
    (renderFb renderEnvCommitFail hdPending [] 9).psetFreed = true :=
  render_modeset_single_commit renderEnvCommitFail hdPending [] 9
    rfl (by decide) rfl rfl rfl rfl rfl
    (by intro p; cases p <;> decide) (by decide)

/-! Part: C10 — full-cache miss leaves the cache unchanged -/

lemma cacheInsert_full (cache : List (Option HwcBo)) (bo : HwcBo)
    (hfull : ∀ s ∈ cache, s ≠ none) : cacheInsert cache bo = cache := by
  induction cache with
  | nil => rfl
  | cons s rest ih =>
    cases s with
    | none => exact absurd rfl (hfull none (List.mem_cons_self _ _))
    | some x =>
      simp only [cacheInsert]
      rw [ih (fun t ht => hfull t (List.mem_cons_of_mem _ ht))]

lemma cacheLookup_none_all {cache : List (Option HwcBo)} {h : Nat}
    (hmiss : cacheLookup cache h = none) :
    ∀ s ∈ cache, (s.any (fun bo => bo.priv == h)) = false := by
  unfold cacheLookup at hmiss
  cases hfind : cache.find? (fun s => s.any (fun bo => bo.priv == h)) with
  | none =>
    intro s hs
    exact Bool.eq_false_iff.mpr (List.find?_eq_none.mp hfind s hs)
  | some s2 =>
    rw [hfind] at hmiss
    have hs2 : s2 = none := by simpa [Option.join] using hmiss
    have hp := List.find?_some hfind
    rw [hs2] at hp
    simp [Option.any] at hp

lemma cacheLookup_none_priv {cache : List (Option HwcBo)} {h : Nat}
    (hmiss : cacheLookup cache h = none) :
    ∀ bo ∈ cache.filterMap id, bo.priv ≠ h := by
  intro bo hbo hpe
  obtain ⟨s, hs, hid⟩ := List.mem_filterMap.mp hbo
  have hall := cacheLookup_none_all hmiss s hs
  have hseq : s = some bo := hid
  rw [hseq] at hall
  simp [Option.any, hpe] at hall

/-- C10: when the presented handle misses the frame-buffer cache and
every cache slot is occupied, the frame is still imported (one import
call) and its transaction still reaches the kernel commit, but the cache
is unchanged: the new object sits in no slot, the display release path
(which releases exactly the cached objects) never touches an object
imported from this handle, and a repeated presentation of the same
handle imports it again. -/
theorem full_cache_miss_cache_unchanged (env : RenderEnv)
    (hd : HwcDisplay) (cache : List (Option HwcBo)) (handle : Nat)
    (hfull : ∀ s ∈ cache, s ≠ none)
    (hmiss : cacheLookup cache handle = none)
    (hh : handle ≠ 0) (himp : env.importRet handle = 0)
    (hcr : env.crtcFound = true) (hpl : env.planeFound = true)
    (hal : env.allocOk = true) (hco : env.connectorFound = true)
    (hadd : ∀ p : PsetProp, ¬env.addRet p < 0) :
    (renderFb env hd cache handle).imports = 1 ∧
    (renderFb env hd cache handle).cache = cache ∧
    (renderFb env hd cache handle).commitCalled = true ∧
    (∀ bo ∈ (releaseDisplay (renderFb env hd cache handle).cache).fst,
      bo.priv ≠ handle) ∧
    (renderFb env hd (renderFb env hd cache handle).cache handle).imports
      = 1 := by
  have hstep : renderFb env hd cache handle =
      renderFbWithBo env hd cache 1 := by
    rw [renderFb_miss env hd cache handle hh hmiss himp]
    rw [cacheInsert_full cache _ hfull]
  have hfl := renderFbWithBo_cache_imports env hd cache 1
  have hcc : (renderFbWithBo env hd cache 1).commitCalled = true := by
    unfold renderFbWithBo
    rw [hcr, hpl, hal, hco]
    simp only [Bool.not_true, Bool.false_eq_true, if_false]
    by_cases h5 : hd.needs_modeset = true
    · rw [if_pos h5]
      rw [if_neg (hadd _), if_neg (hadd _)]
      simp only [addNoFree_ok env _ _ (fun p _ => hadd p)]
      rw [(finishCommit_flags env hd cache 1 _).2.1]
      simp [hadd PsetProp.planeFbId]
    · rw [if_neg h5]
      rw [(finishCommit_flags env hd cache 1 _).2.1]
      simp [hadd PsetProp.planeFbId]
  refine ⟨?_, ?_, ?_, ?_, ?_⟩
  · rw [hstep]; exact hfl.2
  · rw [hstep]; exact hfl.1
  · rw [hstep]; exact hcc
  · rw [hstep, hfl.1]
    intro bo hbo
    exact cacheLookup_none_priv hmiss bo hbo
  · rw [hstep, hfl.1, hstep]
    exact hfl.2

/-! Part: C1 — first-fit binding, code vs spec-side description -/

lemma candFilter_none (l : List Nat) : candFilter none l = l := rfl

lemma candFilter_cons_eq (c0 : Nat) (l : List Nat) :
    candFilter (some c0) (c0 :: l) = candFilter (some c0) l := by
  simp [candFilter, List.filter_cons]

lemma candFilter_cons_ne (cur : Option Nat) (ci : Nat) (l : List Nat)
    (h : some ci ≠ cur) : candFilter cur (ci :: l) = ci :: candFilter cur l := by
  cases cur with
  | none => rfl
  | some c0 =>
    have hne : ci ≠ c0 := fun he => h (by rw [he])
    simp [candFilter, List.filter_cons, hne]

lemma find?_cons_pos {α : Type} (p : α → Bool) (a : α) (l : List α)
    (h : p a = true) : (a :: l).find? p = some a := by
  simp [List.find?_cons, h]

lemma find?_cons_neg {α : Type} (p : α → Bool) (a : α) (l : List α)
    (h : p a = false) : (a :: l).find? p = l.find? p := by
  simp [List.find?_cons, h]

lemma tryCrtcList_eq_find (s : DrmState) (d ei : Nat) (cur : Option Nat)
    (l : List Nat) :
    tryCrtcList s d ei cur l =
      match (candFilter cur l).find? (fun ci => canBindAt s ci d) with
      | some ci => (0, setCrtcDisplay (setEncoderCrtc s ei ci) ci d)
      | none => (-EAGAIN, s) := by
  induction l with
  | nil => cases cur <;> rfl
  | cons ci rest ih =>
    by_cases hsk : some ci = cur
    · subst hsk
      simp only [tryCrtcList]
      rw [ih, candFilter_cons_eq]
      simp
    · simp only [tryCrtcList, if_neg hsk]
      rw [candFilter_cons_ne cur ci rest hsk]
      by_cases hcb : canBindAt s ci d
      · rw [if_pos hcb,
          find?_cons_pos (fun x => canBindAt s x d) ci (candFilter cur rest)
            hcb]
      · rw [if_neg hcb,
          find?_cons_neg (fun x => canBindAt s x d) ci (candFilter cur rest)
            (Bool.eq_false_iff.mpr hcb), ih]

lemma tryEncoderForDisplay_eq_none {s : DrmState} {d ei : Nat}
    (hE : s.encoders[ei]? = none) :
    tryEncoderForDisplay s d ei = (-EAGAIN, s) := by
  unfold tryEncoderForDisplay
  rw [hE]

lemma tryEncoderForDisplay_eq_cur {s : DrmState} {d ei : Nat}
    {enc : DrmEncoder} {c0 : Nat} (hE : s.encoders[ei]? = some enc)
    (hc : enc.crtc = some c0) :
    tryEncoderForDisplay s d ei =
      (if canBindAt s c0 d then (0, setCrtcDisplay s c0 d)
       else tryCrtcList s d ei (some c0) enc.possible_crtcs) := by
  unfold tryEncoderForDisplay
  simp only [hE, hc]

lemma tryEncoderForDisplay_eq_nocur {s : DrmState} {d ei : Nat}
    {enc : DrmEncoder} (hE : s.encoders[ei]? = some enc)
    (hc : enc.crtc = none) :
    tryEncoderForDisplay s d ei =
      tryCrtcList s d ei none enc.possible_crtcs := by
  unfold tryEncoderForDisplay
  simp only [hE, hc]

lemma encCandidates_none {s : DrmState} {ei : Nat}
    (hE : s.encoders[ei]? = none) : encCandidates s ei = [] := by
  unfold encCandidates
  rw [hE]

lemma encCandidates_cur {s : DrmState} {ei : Nat} {enc : DrmEncoder}
    {c0 : Nat} (hE : s.encoders[ei]? = some enc) (hc : enc.crtc = some c0) :
    encCandidates s ei = c0 :: candFilter (some c0) enc.possible_crtcs := by
  unfold encCandidates
  simp only [hE, hc]

lemma encCandidates_nocur {s : DrmState} {ei : Nat} {enc : DrmEncoder}
    (hE : s.encoders[ei]? = some enc) (hc : enc.crtc = none) :
    encCandidates s ei = enc.possible_crtcs := by
  unfold encCandidates
  simp only [hE, hc]

lemma bindCandidate_eq {s : DrmState} {d ei ci : Nat} {enc : DrmEncoder}
    (hE : s.encoders[ei]? = some enc) :
    bindCandidate s d ei ci =
      (if enc.crtc = some ci then setCrtcDisplay s ci d
       else setCrtcDisplay (setEncoderCrtc s ei ci) ci d) := by
  unfold bindCandidate
  rw [hE]

lemma specTryEncoder_lookup_none {s : DrmState} {d ei : Nat}
    (hE : s.encoders[ei]? = none) : specTryEncoder s d ei = none := by
  unfold specTryEncoder
  rw [encCandidates_none hE]
  rfl

lemma tryEncoder_eq_spec (s : DrmState) (d ei : Nat) :
    tryEncoderForDisplay s d ei =
      match specTryEncoder s d ei with
      | some t => (0, t)
      | none => (-EAGAIN, s) := by
  cases hE : s.encoders[ei]? with
  | none => rw [tryEncoderForDisplay_eq_none hE, specTryEncoder_lookup_none hE]
  | some enc =>
    cases hc : enc.crtc with
    | none =>
      rw [tryEncoderForDisplay_eq_nocur hE hc, tryCrtcList_eq_find,
        candFilter_none]
      unfold specTryEncoder
      rw [encCandidates_nocur hE hc]
      cases hfind : enc.possible_crtcs.find? (fun ci => canBindAt s ci d) with
      | none => rfl
      | some ci =>
        show (0, setCrtcDisplay (setEncoderCrtc s ei ci) ci d) =
          (0, bindCandidate s d ei ci)
        rw [bindCandidate_eq hE, if_neg (by simp [hc])]
    | some c0 =>
      rw [tryEncoderForDisplay_eq_cur hE hc]
      unfold specTryEncoder
      rw [encCandidates_cur hE hc]
      by_cases hcb : canBindAt s c0 d
      · rw [if_pos hcb,
          find?_cons_pos (fun x => canBindAt s x d) c0
            (candFilter (some c0) enc.possible_crtcs) hcb]
        show (0, setCrtcDisplay s c0 d) = (0, bindCandidate s d ei c0)
        rw [bindCandidate_eq hE, if_pos hc]
      · rw [if_neg hcb,
          find?_cons_neg (fun x => canBindAt s x d) c0
            (candFilter (some c0) enc.possible_crtcs)
            (Bool.eq_false_iff.mpr hcb),
          tryCrtcList_eq_find]
        cases hfind : (candFilter (some c0) enc.possible_crtcs).find?
            (fun ci => canBindAt s ci d) with
        | none => rfl
        | some ci =>
          have hne : ci ≠ c0 := by
            have hmem := List.mem_of_find?_eq_some hfind
            have hb : (ci != c0) = true := (List.mem_filter.mp hmem).2
            exact bne_iff_ne.mp hb
          show (0, setCrtcDisplay (setEncoderCrtc s ei ci) ci d) =
            (0, bindCandidate s d ei ci)
          rw [bindCandidate_eq hE,
            if_neg (by rw [hc]
                       exact fun hcc => hne (Option.some.inj hcc).symm)]

lemma tryEncoderList_eq_spec (s : DrmState) (d ki : Nat) (l : List Nat) :
    tryEncoderList s d ki l = specEncoderSearch s d ki l := by
  induction l with
  | nil => rfl
  | cons ei rest ih =>
    simp only [tryEncoderList, specEncoderSearch]
    rw [tryEncoder_eq_spec]
    cases hspec : specTryEncoder s d ei with
    | some t => simp
    | none => simp [EAGAIN, ih]

lemma createDisplayPipe_lookup_none {s : DrmState} {ki : Nat}
    (hk : s.connectors[ki]? = none) :
    createDisplayPipe s ki = (-ENODEV, s) := by
  unfold createDisplayPipe
  rw [hk]

lemma createDisplayPipe_bound {s : DrmState} {ki : Nat}
    {conn : DrmConnector} {e0 : Nat} (hk : s.connectors[ki]? = some conn)
    (he : conn.encoder = some e0) :
    createDisplayPipe s ki =
      (if (tryEncoderForDisplay s conn.display e0).fst = 0 then
        (0, (tryEncoderForDisplay s conn.display e0).snd)
       else if (tryEncoderForDisplay s conn.display e0).fst ≠ -EAGAIN then
        tryEncoderForDisplay s conn.display e0
       else
        tryEncoderList (tryEncoderForDisplay s conn.display e0).snd
          conn.display ki conn.possible_encoders) := by
  unfold createDisplayPipe
  simp only [hk, he]

lemma createDisplayPipe_unbound {s : DrmState} {ki : Nat}
    {conn : DrmConnector} (hk : s.connectors[ki]? = some conn)
    (he : conn.encoder = none) :
    createDisplayPipe s ki =
      tryEncoderList s conn.display ki conn.possible_encoders := by
  unfold createDisplayPipe
  simp only [hk, he]

lemma specCreateDisplayPipe_lookup_none {s : DrmState} {ki : Nat}
    (hk : s.connectors[ki]? = none) :
    specCreateDisplayPipe s ki = (-ENODEV, s) := by
  unfold specCreateDisplayPipe
  rw [hk]

lemma specCreateDisplayPipe_bound {s : DrmState} {ki : Nat}
    {conn : DrmConnector} {e0 : Nat} (hk : s.connectors[ki]? = some conn)
    (he : conn.encoder = some e0) :
    specCreateDisplayPipe s ki =
      (match specTryEncoder s conn.display e0 with
       | some t => (0, t)
       | none =>
        specEncoderSearch s conn.display ki conn.possible_encoders) := by
  unfold specCreateDisplayPipe
  simp only [hk, he]

lemma specCreateDisplayPipe_unbound {s : DrmState} {ki : Nat}
    {conn : DrmConnector} (hk : s.connectors[ki]? = some conn)
    (he : conn.encoder = none) :
    specCreateDisplayPipe s ki =
      specEncoderSearch s conn.display ki conn.possible_encoders := by
  unfold specCreateDisplayPipe
  simp only [hk, he]

lemma createDisplayPipe_eq_spec (s : DrmState) (ki : Nat) :
    createDisplayPipe s ki = specCreateDisplayPipe s ki := by
  cases hk : s.connectors[ki]? with
  | none => rw [createDisplayPipe_lookup_none hk,
      specCreateDisplayPipe_lookup_none hk]
  | some conn =>
    cases he : conn.encoder with
    | none =>
      rw [createDisplayPipe_unbound hk he,
        specCreateDisplayPipe_unbound hk he]
      exact tryEncoderList_eq_spec s conn.display ki conn.possible_encoders
    | some e0 =>
      rw [createDisplayPipe_bound hk he, specCreateDisplayPipe_bound hk he,
        tryEncoder_eq_spec]
      cases hspec : specTryEncoder s conn.display e0 with
      | some t => simp
      | none =>
        simp only []
        rw [if_neg (by decide), if_neg (by decide)]
        exact tryEncoderList_eq_spec s conn.display ki
          conn.possible_encoders

lemma specEncoderSearch_cons_none {s : DrmState} {d ki ei : Nat}
    {rest : List Nat} (h : specTryEncoder s d ei = none) :
    specEncoderSearch s d ki (ei :: rest) =
      specEncoderSearch s d ki rest := by
  show (match specTryEncoder s d ei with
        | some t => ((0 : Int), setConnectorEncoder t ki ei)
        | none => specEncoderSearch s d ki rest) =
    specEncoderSearch s d ki rest
  rw [h]

lemma specEncoderSearch_cons_some {s : DrmState} {d ki ei : Nat}
    {rest : List Nat} {t : DrmState} (h : specTryEncoder s d ei = some t) :
    specEncoderSearch s d ki (ei :: rest) =
      (0, setConnectorEncoder t ki ei) := by
  show (match specTryEncoder s d ei with
        | some t => ((0 : Int), setConnectorEncoder t ki ei)
        | none => specEncoderSearch s d ki rest) =
    (0, setConnectorEncoder t ki ei)
  rw [h]

lemma specEncoderSearch_fail {s : DrmState} {d ki : Nat} (l : List Nat)
    (h : (specEncoderSearch s d ki l).fst ≠ 0) :
    specEncoderSearch s d ki l = (-ENODEV, s) := by
  induction l with
  | nil => rfl
  | cons ei rest ih =>
    cases hspec : specTryEncoder s d ei with
    | some t =>
      rw [specEncoderSearch_cons_some hspec] at h
      exact absurd rfl h
    | none =>
      rw [specEncoderSearch_cons_none hspec] at h ⊢
      exact ih h

/-- C1: `CreateDisplayPipe` implements exactly the first-fit binding the
spec describes (`specCreateDisplayPipe`, written from the spec's words:
bound encoder first — its current controller, then its legal controllers
in listing order — then every legal encoder in listing order, binding
the first controller that can serve the display and recording the chosen
encoder on the output); and whenever it does not succeed it returns no
pipeline available (`-ENODEV`) with the state unchanged, so the output
stays unbound. -/
theorem createDisplayPipe_first_fit (s : DrmState) (ki : Nat) :
    createDisplayPipe s ki = specCreateDisplayPipe s ki ∧
    ((createDisplayPipe s ki).fst ≠ 0 →
      createDisplayPipe s ki = (-ENODEV, s)) := by
  refine ⟨createDisplayPipe_eq_spec s ki, ?_⟩
  intro hfail
  rw [createDisplayPipe_eq_spec] at hfail ⊢
  cases hk : s.connectors[ki]? with
  | none => rw [specCreateDisplayPipe_lookup_none hk]
  | some conn =>
    cases he : conn.encoder with
    | none =>
      rw [specCreateDisplayPipe_unbound hk he] at hfail ⊢
      exact specEncoderSearch_fail _ hfail
    | some e0 =>
      rw [specCreateDisplayPipe_bound hk he] at hfail ⊢
      cases hspec : specTryEncoder s conn.display e0 with
      | some t =>
        rw [hspec] at hfail
        exact absurd rfl hfail
      | none =>
        rw [hspec] at hfail
        exact specEncoderSearch_fail _ hfail

/-- Witness for C1: a state whose only legal controller already serves a
different display, so binding fails with no pipeline available and the
state is unchanged. -/
theorem createDisplayPipe_first_fit_witness :
    (createDisplayPipe pipeStateBusy 0).fst ≠ 0 ∧
    createDisplayPipe pipeStateBusy 0 = (-ENODEV, pipeStateBusy) :=
  ⟨by decide, (createDisplayPipe_first_fit pipeStateBusy 0).2 (by decide)⟩

/-! Part: C7 — binding invariant -/

lemma legalRefsB_split {s : DrmState} (h : legalRefsB s = true) :
    s.connectors.all connOk = true ∧ s.encoders.all encOk = true := by
  unfold legalRefsB at h
  simpa using h

lemma legalRefsB_mk {s2 : DrmState}
    (h1 : s2.connectors.all connOk = true)
    (h2 : s2.encoders.all encOk = true) : legalRefsB s2 = true := by
  unfold legalRefsB
  simp [h1, h2]

lemma all_mem {α : Type} {P : α → Bool} {l : List α} (h : l.all P = true)
    {a : α} (ha : a ∈ l) : P a = true := List.all_eq_true.mp h a ha

lemma connOk_encoder {k : DrmConnector} (h : connOk k = true) {e : Nat}
    (he : k.encoder = some e) : e ∈ k.possible_encoders := by
  unfold connOk at h
  rw [he] at h
  exact of_decide_eq_true h

lemma encOk_crtc {e : DrmEncoder} (h : encOk e = true) {ci : Nat}
    (hc : e.crtc = some ci) : ci ∈ e.possible_crtcs := by
  unfold encOk at h
  rw [hc] at h
  exact of_decide_eq_true h

lemma canBindAt_lookup {s : DrmState} {ci d : Nat}
    (h : canBindAt s ci d = true) : ∃ c, s.crtcs[ci]? = some c := by
  by_cases hc : s.crtcs[ci]? = none
  · unfold canBindAt at h
    rw [hc] at h
    simp at h
  · obtain ⟨c, hcs⟩ := Option.ne_none_iff_exists.mp hc
    exact ⟨c, hcs.symm⟩

lemma crtcServes_set {s : DrmState} {ci : Nat} (d : Nat)
    (h : ∃ c, s.crtcs[ci]? = some c) :
    crtcServes (setCrtcDisplay s ci d) ci d := by
  obtain ⟨c, hc⟩ := h
  refine ⟨{ display := some d }, ?_, rfl⟩
  show (listModify s.crtcs ci fun _ => { display := some d })[ci]? =
    some { display := some d }
  rw [listModify_lookup_self, hc]
  rfl

lemma crtcServes_unique (s2 : DrmState) (ci d1 d2 : Nat)
    (h1 : crtcServes s2 ci d1) (h2 : crtcServes s2 ci d2) : d1 = d2 := by
  obtain ⟨c1, hc1, hd1⟩ := h1
  obtain ⟨c2, hc2, hd2⟩ := h2
  rw [hc1] at hc2
  have hcc : c1 = c2 := Option.some.inj hc2
  subst hcc
  rw [hd1] at hd2
  exact Option.some.inj hd2

lemma encCandidates_eq {s : DrmState} {ei : Nat} {enc : DrmEncoder}
    (hE : s.encoders[ei]? = some enc) :
    encCandidates s ei =
      (match enc.crtc with
       | some ci => ci :: candFilter (some ci) enc.possible_crtcs
       | none => enc.possible_crtcs) := by
  unfold encCandidates
  rw [hE]

lemma specTryEncoder_success {s : DrmState} {d ei : Nat} {t : DrmState}
    (hleg : legalRefsB s = true) (h : specTryEncoder s d ei = some t) :
    legalRefsB t = true ∧ t.connectors = s.connectors ∧
    ∃ enc2 ci, t.encoders[ei]? = some enc2 ∧ enc2.crtc = some ci ∧
      ci ∈ enc2.possible_crtcs ∧ crtcServes t ci d := by
  have hsplit := legalRefsB_split hleg
  cases hE : s.encoders[ei]? with
  | none =>
    rw [specTryEncoder_lookup_none hE] at h
    exact absurd h (by simp)
  | some enc =>
    rw [specTryEncoder] at h
    cases hfind : (encCandidates s ei).find?
        (fun ci => canBindAt s ci d) with
    | none => rw [hfind] at h; exact absurd h (by simp)
    | some ci =>
      rw [hfind] at h
      have ht : bindCandidate s d ei ci = t := by simpa using h
      have hcb : canBindAt s ci d = true := by
        simpa using List.find?_some hfind
      have hmem : ci ∈ encCandidates s ei :=
        List.mem_of_find?_eq_some hfind
      by_cases hcur : enc.crtc = some ci
      · have ht2 : t = setCrtcDisplay s ci d := by
          rw [← ht, bindCandidate_eq hE, if_pos hcur]
        subst ht2
        exact ⟨hleg, rfl, enc, ci, hE, hcur,
          encOk_crtc (all_mem hsplit.2 (mem_of_lookup hE)) hcur,
          crtcServes_set d (canBindAt_lookup hcb)⟩
      · have hpos : ci ∈ enc.possible_crtcs := by
          rw [encCandidates_eq hE] at hmem
          cases hc : enc.crtc with
          | none =>
            rw [hc] at hmem
            exact hmem
          | some c0 =>
            rw [hc] at hmem
            rcases List.mem_cons.mp hmem with heq | hmem2
            · exact absurd (by rw [hc, heq]) hcur
            · exact (List.mem_filter.mp hmem2).1
        have ht2 : t = setCrtcDisplay (setEncoderCrtc s ei ci) ci d := by
          rw [← ht, bindCandidate_eq hE, if_neg hcur]
        subst ht2
        refine ⟨?_, rfl, { enc with crtc := some ci }, ci, ?_, rfl, hpos,
          ?_⟩
        · apply legalRefsB_mk
          · exact hsplit.1
          · show (listModify s.encoders ei
                fun e => { e with crtc := some ci }).all encOk = true
            apply all_listModify hsplit.2
            intro a ha
            have haenc : a = enc := by
              rw [hE] at ha
              exact (Option.some.inj ha).symm
            subst haenc
            unfold encOk
            simp [hpos]
        · show (listModify s.encoders ei
              fun e => { e with crtc := some ci })[ei]? =
            some { enc with crtc := some ci }
          rw [listModify_lookup_self, hE]
          rfl
        · exact crtcServes_set d (canBindAt_lookup hcb)

lemma specEncoderSearch_props {s : DrmState} {d ki : Nat}
    {conn : DrmConnector} (hleg : legalRefsB s = true)
    (hk : s.connectors[ki]? = some conn) (hdis : d = conn.display) :
    ∀ l : List Nat, (∀ ei ∈ l, ei ∈ conn.possible_encoders) →
      legalRefsB (specEncoderSearch s d ki l).snd = true ∧
      ((specEncoderSearch s d ki l).fst = 0 →
        boundOk (specEncoderSearch s d ki l).snd ki) := by
  intro l
  induction l with
  | nil =>
    intro _
    refine ⟨hleg, fun h0 => ?_⟩
    have hne : (-ENODEV : Int) ≠ 0 := by decide
    exact absurd h0 hne
  | cons ei rest ih =>
    intro hsub
    cases hspec : specTryEncoder s d ei with
    | none =>
      rw [specEncoderSearch_cons_none hspec]
      exact ih (fun x hx => hsub x (List.mem_cons_of_mem ei hx))
    | some t =>
      rw [specEncoderSearch_cons_some hspec]
      show legalRefsB (setConnectorEncoder t ki ei) = true ∧
        ((0 : Int) = 0 → boundOk (setConnectorEncoder t ki ei) ki)
      obtain ⟨hlegt, hconnt, enc2, ci, hE2, hc2, hp2, hserv⟩ :=
        specTryEncoder_success hleg hspec
      have heiMem : ei ∈ conn.possible_encoders :=
        hsub ei (List.mem_cons_self ei rest)
      have hlook : (setConnectorEncoder t ki ei).connectors[ki]? =
          some { conn with encoder := some ei } := by
        show (listModify t.connectors ki
          fun k => { k with encoder := some ei })[ki]? = _
        rw [listModify_lookup_self, hconnt, hk]
        rfl
      constructor
      · apply legalRefsB_mk
        · show (listModify t.connectors ki
              fun k => { k with encoder := some ei }).all connOk = true
          apply all_listModify (legalRefsB_split hlegt).1
          intro a ha
          have haconn : a = conn := by
            rw [hconnt, hk] at ha
            exact (Option.some.inj ha).symm
          subst haconn
          unfold connOk
          simp [heiMem]
        · exact (legalRefsB_split hlegt).2
      · intro _
        intro conn2 hconn2
        rw [hlook] at hconn2
        have hconn2eq : conn2 = { conn with encoder := some ei } :=
          (Option.some.inj hconn2).symm
        subst hconn2eq
        refine ⟨ei, enc2, ci, rfl, heiMem, hE2, hc2, hp2, ?_⟩
        rw [hdis] at hserv
        exact hserv

/-- C7: starting from any state whose set encoder/controller references
are legal (what discovery establishes when the kernel-reported current
bindings lie in the possible-peer sets), running the binding resolver
preserves that legality; every controller serves at most one logical
display; and on success the output's bound encoder is in its
legal-encoder list, that encoder's controller is in its legal-controller
set, and that controller serves the output's display. -/
theorem binding_resolver_invariant (s : DrmState) (ki : Nat)
    (hleg : legalRefsB s = true) :
    legalRefsB (createDisplayPipe s ki).snd = true ∧
    (∀ ci d1 d2, crtcServes (createDisplayPipe s ki).snd ci d1 →
      crtcServes (createDisplayPipe s ki).snd ci d2 → d1 = d2) ∧
    ((createDisplayPipe s ki).fst = 0 →
      boundOk (createDisplayPipe s ki).snd ki) := by
  have hmain : legalRefsB (createDisplayPipe s ki).snd = true ∧
      ((createDisplayPipe s ki).fst = 0 →
        boundOk (createDisplayPipe s ki).snd ki) := by
    rw [createDisplayPipe_eq_spec]
    cases hk : s.connectors[ki]? with
    | none =>
      rw [specCreateDisplayPipe_lookup_none hk]
      refine ⟨hleg, fun h0 => ?_⟩
      have hne : (-ENODEV : Int) ≠ 0 := by decide
      exact absurd h0 hne
    | some conn =>
      cases he : conn.encoder with
      | some e0 =>
        cases hspec : specTryEncoder s conn.display e0 with
        | some t =>
          have heq : specCreateDisplayPipe s ki = (0, t) := by
            rw [specCreateDisplayPipe_bound hk he, hspec]
          rw [heq]
          show legalRefsB t = true ∧ ((0 : Int) = 0 → boundOk t ki)
          obtain ⟨hlegt, hconnt, enc2, ci, hE2, hc2, hp2, hserv⟩ :=
            specTryEncoder_success hleg hspec
          refine ⟨hlegt, fun _ => ?_⟩
          intro conn2 hconn2
          rw [hconnt, hk] at hconn2
          have hconn2eq : conn2 = conn := (Option.some.inj hconn2).symm
          subst hconn2eq
          exact ⟨e0, enc2, ci, he,
            connOk_encoder (all_mem (legalRefsB_split hleg).1
              (mem_of_lookup hk)) he, hE2, hc2, hp2, hserv⟩
        | none =>
          have heq : specCreateDisplayPipe s ki =
              specEncoderSearch s conn.display ki
                conn.possible_encoders := by
            rw [specCreateDisplayPipe_bound hk he, hspec]
          rw [heq]
          exact specEncoderSearch_props hleg hk rfl
            conn.possible_encoders (fun x hx => hx)
      | none =>
        rw [specCreateDisplayPipe_unbound hk he]
        exact specEncoderSearch_props hleg hk rfl
          conn.possible_encoders (fun x hx => hx)
  exact ⟨hmain.1, fun ci d1 d2 => crtcServes_unique _ ci d1 d2, hmain.2⟩

/-- Witness for C7: binding succeeds on a concrete two-controller
topology from a legal state, and the invariant holds afterwards. -/
theorem binding_resolver_invariant_witness :
    legalRefsB pipeStateFree = true ∧
    (legalRefsB (createDisplayPipe pipeStateFree 0).snd = true ∧
    (∀ ci d1 d2,
      crtcServes (createDisplayPipe pipeStateFree 0).snd ci d1 →
      crtcServes (createDisplayPipe pipeStateFree 0).snd ci d2 → d1 = d2) ∧
    ((createDisplayPipe pipeStateFree 0).fst = 0 →
      boundOk (createDisplayPipe pipeStateFree 0).snd 0)) :=
  ⟨by decide, binding_resolver_invariant pipeStateFree 0 (by decide)⟩

/-- Witness for C10 at a concrete full cache. -/
theorem full_cache_miss_cache_unchanged_witness :
    (renderFb renderEnvOk hdPending cacheFullEx 7).imports = 1 ∧
    (renderFb renderEnvOk hdPending cacheFullEx 7).cache = cacheFullEx ∧
    (renderFb renderEnvOk hdPending cacheFullEx 7).commitCalled = true ∧
    (∀ bo ∈ (releaseDisplay
        (renderFb renderEnvOk hdPending cacheFullEx 7).cache).fst,
      bo.priv ≠ 7) ∧
    (renderFb renderEnvOk hdPending
      (renderFb renderEnvOk hdPending cacheFullEx 7).cache 7).imports = 1 :=
  full_cache_miss_cache_unchanged renderEnvOk hdPending cacheFullEx 7
    (by decide) (by decide) (by decide) rfl rfl rfl rfl rfl
    (by intro p; cases p <;> decide)

end Hwc
